import Mathlib

/-!
Shallow embedding of the vibez-monitor incremental multi-source sync engine
(`src/backend/vibez/beeper_sync.py`, `google_groups_sync.py`, `matrix_sync.py`,
`db.py`), together with proofs settling the specification claims about it.

Modelling conventions:
* Python strings are modelled as Lean `String` / `List Char`; only ASCII
  behaviour of `str.lower` / `str.strip` / `str.splitlines` is modelled
  (all inputs of interest are ASCII; `\n` is the only line break modelled).
* The sqlite `messages` table is a list of rows with `id` as primary key
  (`INSERT OR IGNORE` = insert only when no row with that id exists); the
  `sync_state` key-value table is an association list where
  `INSERT OR REPLACE` replaces the binding of the key.
* External library calls (IMAP, HTTP, `email` MIME parsing, `hashlib.sha1`,
  `json.dumps`, ISO-8601 / RFC 2822 date parsing) are modelled as data or as
  function parameters: a fetched email arrives as an `EmailMsg` record whose
  fields hold what the `email` library would return, sha1 and json serializers
  are function parameters, and parsed dates are carried as epoch-millisecond
  values.
* Exceptions raised by a modelled operation are represented with `Option` /
  `Except`, and "the sqlite insert raised" is an oracle parameter
  `fails : Msg → Bool`.
-/

/-! ### Character classes (ASCII, by code point)

`isSlugChar` is the character class `[a-z0-9._-]` of the final
`re.sub(r"[^a-z0-9._-]+", "-", text)` in `canonical_group_key`;
`wsChar` is the whitespace stripped by Python `str.strip()`;
`quoteStripChar` is the set in `text.strip(" <>\"'")`;
`dashDotUnderscore` is the set in `text.strip("-._")`. -/

def isSlugChar (c : Char) : Bool :=
  decide ((97 ≤ c.toNat ∧ c.toNat ≤ 122) ∨ (48 ≤ c.toNat ∧ c.toNat ≤ 57) ∨
    c.toNat = 46 ∨ c.toNat = 95 ∨ c.toNat = 45)

def wsChar (c : Char) : Bool :=
  decide (c.toNat = 32 ∨ c.toNat = 9 ∨ c.toNat = 10 ∨ c.toNat = 13 ∨
    c.toNat = 11 ∨ c.toNat = 12)

def quoteStripChar (c : Char) : Bool :=
  decide (c.toNat = 32 ∨ c.toNat = 60 ∨ c.toNat = 62 ∨ c.toNat = 34 ∨ c.toNat = 39)

def dashDotUnderscore (c : Char) : Bool :=
  decide (c.toNat = 45 ∨ c.toNat = 46 ∨ c.toNat = 95)

/-- Python `text.strip(chars)` on a character list: drop from the left, then
from the right, every character satisfying `p`. -/
def pyStrip (p : Char → Bool) (l : List Char) : List Char :=
  (l.dropWhile p).rdropWhile p

/-- Python `str.strip()` (default whitespace) on a `String`. -/
def pyStripStr (s : String) : String :=
  String.mk (pyStrip wsChar s.data)

/-- Python `str.lower()` on a `String` (ASCII model). -/
def pyLowerStr (s : String) : String :=
  String.mk (s.data.map Char.toLower)

/-- Python `s.startswith(p)` (structural, so it evaluates in the kernel). -/
def pyStartsWith (s p : String) : Bool :=
  p.data.isPrefixOf s.data

/-- Python `s.endswith(p)` (structural). -/
def pyEndsWith (s p : String) : Bool :=
  p.data.isSuffixOf s.data

/-- Python `s.split(c)[0]`: the part before the first occurrence of the
character `c` (the whole string when absent). -/
def takeBeforeChar (c : Char) (s : String) : String :=
  String.mk (s.data.takeWhile (fun x => x != c))

/-- Python `int(s)` for non-negative decimal strings; `none` on anything
else (signs and surrounding whitespace are not modelled — the engine only
parses back its own `str(uid)` output). -/
def pyToNat (s : String) : Option Nat :=
  if s.data ≠ [] ∧ s.data.all (fun c => decide (48 ≤ c.toNat ∧ c.toNat ≤ 57)) then
    some (s.data.foldl (fun n c => n * 10 + (c.toNat - 48)) 0)
  else none

/-- Python `s.replace(pat, repl)` for a non-empty `pat`: replace every
non-overlapping occurrence left to right.  The fuel argument makes the
recursion structural. -/
def pyReplaceAux (pat repl : List Char) : Nat → List Char → List Char
  | _, [] => []
  | 0, l => l
  | fuel + 1, c :: rest =>
    if pat ≠ [] ∧ pat.isPrefixOf (c :: rest) then
      repl ++ pyReplaceAux pat repl fuel (List.drop (pat.length - 1) rest)
    else c :: pyReplaceAux pat repl fuel rest

/-- Python `s.replace(pat, repl)` on strings. -/
def pyReplace (s pat repl : String) : String :=
  String.mk (pyReplaceAux pat.data repl.data s.data.length s.data)

/-- The run-collapsing state machine of `re.sub(r"[^a-z0-9._-]+", "-", text)`:
kept characters are exactly the `isSlugChar` ones, and every maximal run of
other characters is replaced by a single `'-'`.  The flag records whether the
previous character belonged to such a run. -/
def subBadAux : Bool → List Char → List Char
  | _, [] => []
  | inBad, c :: rest =>
    if isSlugChar c then c :: subBadAux false rest
    else if inBad then subBadAux true rest
    else '-' :: subBadAux true rest

/-- Python `text.split(pat, 1)[0]`: the part of the list before the first
occurrence of `pat` (the whole list when `pat` does not occur). -/
def takeBeforeSub (pat : List Char) : List Char → List Char
  | [] => []
  | c :: rest => if pat.isPrefixOf (c :: rest) then [] else c :: takeBeforeSub pat rest

/-- Python `text.rfind(c)` for a character known to occur: index of the last
occurrence. -/
def lastIdxOf (l : List Char) (c : Char) : Nat :=
  l.length - 1 - (l.reverse.indexOf c)

/-- The `.googlegroups.com` registrar suffix split off by
`canonical_group_key` (`f".{_GOOGLE_GROUPS_DOMAIN}"`). -/
def ggDomain : List Char := ".googlegroups.com".data

/-- Stage 1 of `canonical_group_key`: the angle-bracket extraction
`text[text.find("<") + 1 : text.rfind(">")]`, applied only when both `<` and
`>` occur. -/
def cgk_t1 (text : List Char) : List Char :=
  if text.contains '<' && text.contains '>' then
    (text.take (lastIdxOf text '>')).drop (text.indexOf '<' + 1)
  else text

/-- Stage 2: `text.strip(" <>\"'")`. -/
def cgk_t2 (text : List Char) : List Char :=
  pyStrip quoteStripChar (cgk_t1 text)

/-- Stage 3: `text.split("@", 1)[0]` when `@` occurs. -/
def cgk_t3 (text : List Char) : List Char :=
  if (cgk_t2 text).contains '@' then takeBeforeSub ['@'] (cgk_t2 text) else cgk_t2 text

/-- Stage 4: `text.split(".googlegroups.com", 1)[0]` when the registrar
suffix occurs. -/
def cgk_t4 (text : List Char) : List Char :=
  if ggDomain <:+: cgk_t3 text then takeBeforeSub ggDomain (cgk_t3 text) else cgk_t3 text

/-- Stages 1-4 followed by `re.sub(r"[^a-z0-9._-]+", "-", text).strip("-._")`:
the whole body of `canonical_group_key` after the initial decode/strip/lower
and the emptiness test. -/
def cgk_core (text : List Char) : List Char :=
  pyStrip dashDotUnderscore (subBadAux false (cgk_t4 text))

/-- `canonical_group_key` (google_groups_sync.py:45-58).  `_decode_mime` is
modelled as `str.strip()`: it decodes RFC 2047 encoded words and strips, and
on header values without encoded words (in particular on every already
canonical key, whose characters are restricted to `[a-z0-9._-]`) it returns
the stripped input. -/
def canonical_group_key (value : String) : String :=
  if (pyStrip wsChar value.data).map Char.toLower = [] then ""
  else String.mk (cgk_core ((pyStrip wsChar value.data).map Char.toLower))

/-! ### Mailbox body normalization (`_strip_quoted_text`, google_groups_sync.py:119-132) -/

/-- Python `str.splitlines()` restricted to `\n` line breaks: like
`splitOn "\n"` except that a trailing newline does not produce a trailing
empty line and the empty string has no lines. -/
def splitLinesAux : List Char → List Char → List String
  | [], acc => [String.mk acc.reverse]
  | c :: rest, acc =>
    if c = '\n' then String.mk acc.reverse :: splitLinesAux rest []
    else splitLinesAux rest (c :: acc)

/-- See the doc comment above: Python `str.splitlines()` for `\n` breaks. -/
def pySplitlines (s : String) : List String :=
  if s.data = [] then []
  else if s.data.getLast? = some '\n' then (splitLinesAux s.data []).dropLast
  else splitLinesAux s.data []

/-- Whether `_QUOTE_BREAK_RE = re.compile(r"^On .+wrote:\s*$", re.IGNORECASE)`
matches the (newline-free) line `s` at its start: after lowering, the line
must start with `"on "`, end — up to trailing whitespace — with `"wrote:"`,
and have at least one character between the two (the `.+`). -/
def quoteBreakMatch (s : String) : Bool :=
  let t := pyLowerStr s
  let u := String.mk (t.data.rdropWhile wsChar)
  pyStartsWith t "on " && pyEndsWith u "wrote:" && decide (10 ≤ u.length)

/-- The `for line in lines` loop of `_strip_quoted_text` with its `break` /
`continue` control flow; `acc` is the reversed `kept` list. -/
def sqtKeep : List String → List String → List String
  | [], acc => acc.reverse
  | line :: rest, acc =>
    let compact := pyStripStr line
    if quoteBreakMatch compact then acc.reverse
    else if pyStartsWith compact ">" then sqtKeep rest acc
    else if pyStartsWith (pyLowerStr compact) "from: " && !acc.isEmpty then acc.reverse
    else sqtKeep rest (line :: acc)

/-- A run of `k` newlines after `re.sub(r"\n{3,}", "\n\n", _)`: three or more
collapse to two. -/
def nlRun (k : Nat) : List Char :=
  if 3 ≤ k then ['\n', '\n'] else List.replicate k '\n'

/-- State machine for `re.sub(r"\n{3,}", "\n\n", cleaned)`; `k` counts the
pending newline run. -/
def collapseNlAux : Nat → List Char → List Char
  | k, [] => nlRun k
  | k, c :: rest =>
    if c = '\n' then collapseNlAux (k + 1) rest
    else nlRun k ++ (c :: collapseNlAux 0 rest)

/-- `_strip_quoted_text` (google_groups_sync.py:119-132): keep lines until the
first `On ... wrote:` boundary, drop `>`-quoted lines, stop at a `From: ` line
once something was kept, then strip and collapse long newline runs. -/
def strip_quoted_text (text : String) : String :=
  let kept := sqtKeep (pySplitlines text) []
  let cleaned := pyStripStr (String.intercalate "\n" kept)
  String.mk (collapseNlAux 0 cleaned.data)

/-! ### Canonical message rows and the sqlite model (`db.py` SCHEMA) -/

/-- One row of the `messages` table (db.py:8-18); `id` is the primary key.
`created_at` (a sqlite-side default) is not modelled. -/
structure Msg where
  id : String
  room_id : String
  room_name : String
  sender_id : String
  sender_name : String
  body : String
  timestamp : Int
  raw_event : String
deriving DecidableEq

/-- The database state owned by the sync engine: the `messages` table and the
`sync_state` key-value table (db.py:8-18, 57-60). -/
structure DB where
  messages : List Msg
  sync_state : List (String × String)
deriving DecidableEq

/-- `SELECT value FROM sync_state WHERE key = ?`. -/
def getState (db : DB) (key : String) : Option String :=
  (db.sync_state.find? (fun p => p.1 == key)).map (fun p => p.2)

/-- `INSERT OR REPLACE INTO sync_state (key, value) VALUES (?, ?)`. -/
def setState (db : DB) (key value : String) : DB :=
  { db with sync_state := (key, value) :: db.sync_state.filter (fun p => p.1 != key) }

/-- Whether the `messages` table already has a row with primary key `i`. -/
def messagesHasId (tbl : List Msg) (i : String) : Bool :=
  tbl.any (fun r => r.id == i)

/-- `INSERT OR IGNORE INTO messages ... VALUES ...`: the new table and
`cursor.rowcount` (1 when inserted, 0 on the dedup no-op). -/
def insertOrIgnore (tbl : List Msg) (m : Msg) : List Msg × Nat :=
  if messagesHasId tbl m.id then (tbl, 0) else (tbl ++ [m], 1)

/-- `save_messages` (beeper_sync.py:211-231).  Each row is inserted inside its
own `try/except`: a raising insert (modelled by the oracle `fails`) is logged
and skipped, every other row is still processed, and the accumulated count of
newly inserted rows is returned. -/
def save_messages (fails : Msg → Bool) (tbl : List Msg) : List Msg → List Msg × Nat
  | [] => (tbl, 0)
  | m :: rest =>
    if fails m then save_messages fails tbl rest
    else
      let (t, c) := insertOrIgnore tbl m
      let (t2, c2) := save_messages fails t rest
      (t2, c + c2)

deriving instance DecidableEq for Except

/-- `_save_messages` (google_groups_sync.py:234-258).  There is no per-row
`try/except`: the first raising insert propagates out of the function before
`conn.commit()` runs, so `.error ()` means the whole batch was aborted and the
stored table is unchanged. -/
def gg_save_messages (fails : Msg → Bool) (tbl : List Msg) : List Msg → Except Unit (List Msg × Nat)
  | [] => .ok (tbl, 0)
  | m :: rest =>
    if fails m then .error ()
    else
      let (t, c) := insertOrIgnore tbl m
      match gg_save_messages fails t rest with
      | .ok (t2, c2) => .ok (t2, c + c2)
      | .error e => .error e

/-! ### Cursor store (`sync_state` keys) -/

/-- `_load_uid_cursor` (google_groups_sync.py:199-211): read
`google_groups_uid_cursor:<mailbox>` and parse it as an integer, `none` when
absent or unparseable. -/
def loadUidCursor (db : DB) (mailbox : String) : Option Nat :=
  (getState db ("google_groups_uid_cursor:" ++ mailbox)).bind pyToNat

/-- `_save_uid_cursor` (google_groups_sync.py:214-221). -/
def saveUidCursor (db : DB) (mailbox : String) (uid : Nat) : DB :=
  setState db ("google_groups_uid_cursor:" ++ mailbox) (toString uid)

/-- `load_cursor` (beeper_sync.py:137-145): the stored `sortKey` for a chat. -/
def loadBeeperCursor (db : DB) (chatId : String) : Option String :=
  getState db ("beeper_cursor:" ++ chatId)

/-- `save_cursor` (beeper_sync.py:148-156). -/
def saveBeeperCursor (db : DB) (chatId : String) (cur : String) : DB :=
  setState db ("beeper_cursor:" ++ chatId) cur

/-! ### Google Groups adapter (`google_groups_sync.py`) -/

/-- An RFC822 email as delivered by the `email` library after MIME decoding:
each field holds what the corresponding external call would return.
`addrs` lists the addresses found in the To/Cc/Delivered-To headers in order;
`fromName`/`fromAddr` are `parseaddr`'s split of the decoded From header;
`textBody` is `_extract_text_body`'s result (plain-text part preferred,
HTML tag-stripped otherwise); `dateMs` is the Date header parsed by
`parsedate_to_datetime` as epoch milliseconds, `none` when the header is
missing or unparseable. -/
structure EmailMsg where
  listId : Option String
  xGoogleLoop : Option String
  addrs : List String
  fromName : String
  fromAddr : String
  textBody : String
  dateHeader : String
  dateMs : Option Int
  messageId : String
  subject : String
deriving DecidableEq

/-- `_extract_group_key` (google_groups_sync.py:61-74): List-Id, then
X-Google-Loop, then the first To/Cc/Delivered-To address ending in
`@googlegroups.com`. -/
def extract_group_key (e : EmailMsg) : String :=
  let k1 := canonical_group_key (e.listId.getD "")
  if k1 ≠ "" then k1
  else
    let k2 := canonical_group_key (e.xGoogleLoop.getD "")
    if k2 ≠ "" then k2
    else
      match (e.addrs.map (fun a => pyLowerStr (pyStripStr a))).find?
          (fun a => pyEndsWith a "@googlegroups.com") with
      | some a => canonical_group_key a
      | none => ""

/-- Python `sender_addr.split("@")[0]`. -/
def takeBeforeAt (s : String) : String :=
  takeBeforeChar '@' s

/-- `parse_group_email` (google_groups_sync.py:135-196).  `sha1hex` models
`hashlib.sha1(...).hexdigest()` and `dumps` models the `json.dumps` of the
raw-event dictionary (both external, deterministic in their input); `nowMs`
models `datetime.now(tz=timezone.utc)` at the moment of parsing. -/
def parse_group_email (sha1hex : String → String) (dumps : EmailMsg → Nat → String)
    (nowMs : Int) (e : EmailMsg) (uid : Nat) (allowed_groups : List String) : Option Msg :=
  let group_key := extract_group_key e
  if group_key = "" then none
  else if allowed_groups ≠ [] ∧ ¬ group_key ∈ allowed_groups then none
  else
    let sender_name_raw := pyStripStr e.fromName
    let sender_name :=
      if sender_name_raw ≠ "" then sender_name_raw
      else if takeBeforeAt e.fromAddr ≠ "" then takeBeforeAt e.fromAddr
      else "Unknown"
    let sender_id := if e.fromAddr ≠ "" then pyLowerStr e.fromAddr else pyLowerStr sender_name
    let body := strip_quoted_text e.textBody
    if body = "" then none
    else
      let ts_ms := e.dateMs.getD nowMs
      let message_id := pyStripStr e.messageId
      let stable_source :=
        if message_id ≠ "" then message_id
        else group_key ++ ":" ++ toString uid ++ ":" ++ e.dateHeader ++ ":" ++ sender_id
      let digest := String.mk ((sha1hex stable_source).data.take 24)
      some
        { id := "googlegroup-" ++ group_key ++ "-" ++ digest
          room_id := "googlegroup:" ++ group_key
          room_name := group_key
          sender_id := sender_id
          sender_name := sender_name
          body := body
          timestamp := ts_ms
          raw_event := dumps e uid }

/-- The IMAP mailbox as seen through a successful session: the UID search
result and, per UID, the fetched email (already MIME-decoded; `none` models a
failed or empty FETCH, which `poll_once` skips). -/
structure ImapRemote where
  uids : List Nat
  fetchResult : Nat → Option EmailMsg

/-- `poll_once` (google_groups_sync.py:261-321) on a successful IMAP session.
First run (no stored cursor): seed the cursor at the highest UID and return no
messages.  Otherwise: search `cursor+1:*`, parse each fetched email, save the
cursor at the highest seen UID (inside `poll_once`, before any message is
persisted), and return the parsed batch. -/
def gg_poll_once (sha1hex : String → String) (dumps : EmailMsg → Nat → String)
    (nowMs : Int) (remote : ImapRemote) (mailbox : String)
    (group_keys : List String) (db : DB) : DB × List Msg :=
  match loadUidCursor db mailbox with
  | none =>
    if remote.uids = [] then (db, [])
    else (saveUidCursor db mailbox (remote.uids.foldl Nat.max 0), [])
  | some cur =>
    let uids := remote.uids.filter (fun u => decide (cur + 1 ≤ u))
    if uids = [] then (db, [])
    else
      let parsed := uids.filterMap (fun uid =>
        (remote.fetchResult uid).bind
          (fun e => parse_group_email sha1hex dumps nowMs e uid group_keys))
      (saveUidCursor db mailbox (uids.foldl Nat.max cur), parsed)

/-- One successful iteration of the Google Groups `sync_loop` body
(google_groups_sync.py:346-370) as the list of database states it passes
through: before the cycle, after `poll_once` returned (cursor already saved),
and after `_save_messages` persisted the non-empty batch. -/
def gg_cycle_states (sha1hex : String → String) (dumps : EmailMsg → Nat → String)
    (nowMs : Int) (remote : ImapRemote) (mailbox : String)
    (group_keys : List String) (db : DB) : List DB :=
  let pr := gg_poll_once sha1hex dumps nowMs remote mailbox group_keys db
  let db2 :=
    if pr.2 ≠ [] then
      { pr.1 with
        messages :=
          match gg_save_messages (fun _ => false) pr.1.messages pr.2 with
          | .ok (t, _) => t
          | .error _ => pr.1.messages }
    else pr.1
  [db, pr.1, db2]

/-! ### Beeper adapter (`beeper_sync.py`) -/

/-- A chat object from `GET /v1/chats` with the fields the sync reads. -/
structure Chat where
  id : String
  title : String
  network : String
  type : String
deriving DecidableEq

/-- `get_whatsapp_groups` (beeper_sync.py:90-102): keep WhatsApp group chats
whose title is not excluded. -/
def get_whatsapp_groups (items : List Chat) (excluded_groups : List String) : List Chat :=
  items.filter (fun c =>
    c.network == "WhatsApp" && c.type == "group" && !(excluded_groups.contains c.title))

/-- A message object from the Beeper Desktop API with the fields
`parse_beeper_message` reads.  `timestampMs` models the ISO-8601 `timestamp`
field as its epoch-millisecond value (the `datetime.fromisoformat` conversion
is part of the wire model). -/
structure BRaw where
  type : String
  text : String
  timestampMs : Int
  senderName : String
  senderID : String
  chatID : String
  id : String
  sortKey : String
deriving DecidableEq

/-- The message types `parse_beeper_message` accepts. -/
def beeperTextTypes : List String := ["TEXT", "IMAGE", "VIDEO", "AUDIO", "FILE"]

/-- `parse_beeper_message` (beeper_sync.py:105-134): `none` for non-text
messages and blank bodies; Matrix-style sender names are demangled. -/
def parse_beeper_message (dumps : BRaw → String) (msg : BRaw) (room_name : String) : Option Msg :=
  if ¬ msg.type ∈ beeperTextTypes then none
  else if pyStripStr msg.text = "" then none
  else
    let sn := msg.senderName
    let sender_name :=
      if pyStartsWith sn "@" ∧ sn.data.contains ':' then
        String.mk ((takeBeforeChar ':' sn).data.dropWhile (fun c => c == '@'))
      else sn
    some
      { id := "beeper-" ++ msg.chatID ++ "-" ++ msg.id
        room_id := msg.chatID
        room_name := room_name
        sender_id := msg.senderID
        sender_name := sender_name
        body := msg.text
        timestamp := msg.timestampMs
        raw_event := dumps msg }

/-- One chat's remote state for the Beeper API: the newest-first latest page
(`GET .../messages` without parameters) and, per cursor, the aggregate of all
pages of messages strictly newer than that cursor (`direction=after`
pagination is modelled as the aggregated response). -/
structure BeeperChatRemote where
  latestPage : List BRaw
  fetchAfter : String → List BRaw

/-- `fetch_new_messages` (beeper_sync.py:176-208): items newer than the
cursor (or the latest page on first run) and the newest `sortKey` as the next
cursor, keeping the old cursor when nothing was returned. -/
def fetch_new_messages (remote : BeeperChatRemote) (after_cursor : Option String) :
    List BRaw × Option String :=
  let items :=
    match after_cursor with
    | some c => remote.fetchAfter c
    | none => remote.latestPage
  (items, match items with
    | i :: _ => some i.sortKey
    | [] => after_cursor)

/-- The cursor-seeding block of the Beeper `sync_loop` (beeper_sync.py:292-305)
for one group: when no cursor is stored and the latest page is non-empty, seed
the cursor at the newest message's `sortKey`. -/
def beeper_init_cursor (remote : BeeperChatRemote) (chatId : String) (db : DB) : DB :=
  match loadBeeperCursor db chatId with
  | some _ => db
  | none =>
    match remote.latestPage with
    | [] => db
    | item :: _ => saveBeeperCursor db chatId item.sortKey

/-- The batch of parsed messages one group contributes in `poll_once`
(beeper_sync.py:240-268); `fetch = none` models `fetch_new_messages` raising
(the group is skipped). -/
def beeper_group_batch (dumps : BRaw → String)
    (fetch : Option (List BRaw × Option String)) (title : String) : List Msg :=
  match fetch with
  | none => []
  | some (raws, _) => raws.filterMap (fun r => parse_beeper_message dumps r title)

/-- The state after the `save_messages` step of one group's slice of
`poll_once` (beeper_sync.py:251-257): the parsed batch, when non-empty, is
persisted; the cursor is untouched. -/
def beeper_group_db1 (dumps : BRaw → String) (raws : List BRaw) (g : Chat) (db : DB) : DB :=
  if raws.filterMap (fun r => parse_beeper_message dumps r g.title) ≠ [] then
    { db with
      messages := (save_messages (fun _ => false) db.messages
        (raws.filterMap (fun r => parse_beeper_message dumps r g.title))).1 }
  else db

/-- The state after the `save_cursor` step (beeper_sync.py:265-266): the new
cursor, when present and different from the one loaded at cycle start, is
stored on top of `beeper_group_db1`. -/
def beeper_group_db2 (dumps : BRaw → String) (raws : List BRaw) (newCur : Option String)
    (g : Chat) (db : DB) : DB :=
  match newCur with
  | some nc =>
    if loadBeeperCursor db g.id ≠ some nc then
      saveBeeperCursor (beeper_group_db1 dumps raws g db) g.id nc
    else beeper_group_db1 dumps raws g db
  | none => beeper_group_db1 dumps raws g db

/-- One group's slice of `poll_once` (beeper_sync.py:240-268) as the list of
database states it passes through: before, after `save_messages` on a
non-empty parsed batch, and after `save_cursor` stored a changed cursor. -/
def beeper_group_cycle_states (dumps : BRaw → String)
    (fetch : Option (List BRaw × Option String)) (g : Chat) (db : DB) : List DB :=
  match fetch with
  | none => [db]
  | some (raws, newCur) =>
    [db, beeper_group_db1 dumps raws g db, beeper_group_db2 dumps raws newCur g db]

/-- `poll_once` (beeper_sync.py:234-268) over the whole monitored group list.
`fetches g` is the outcome of `fetch_new_messages` for group `g`; `none`
models the fetch raising — the per-group `try/except` at lines 245-249 logs
it and `continue`s, so a fetch failure (an HTTP 401 from the source included)
never escapes `poll_once`.  Per group: the non-empty parsed batch is saved,
the first `saved` parsed messages are appended to the returned `all_new`
(`all_new.extend(parsed[:saved])`), and a changed cursor is stored
(`beeper_group_db2` composes both database writes). -/
def beeper_poll_once (dumps : BRaw → String)
    (fetches : Chat → Option (List BRaw × Option String)) :
    List Chat → DB → DB × List Msg
  | [], db => (db, [])
  | g :: gs, db =>
    match fetches g with
    | none => beeper_poll_once dumps fetches gs db
    | some (raws, newCur) =>
      let parsed := raws.filterMap (fun r => parse_beeper_message dumps r g.title)
      let saved :=
        if parsed ≠ [] then (save_messages (fun _ => false) db.messages parsed).2 else 0
      let pr := beeper_poll_once dumps fetches gs (beeper_group_db2 dumps raws newCur g db)
      (pr.1, parsed.take saved ++ pr.2)

/-! ### Supervisor loops: backoff and failure handling -/

/-- The outcome of one iteration of the Beeper `sync_loop` body as seen by
its `try/except` (beeper_sync.py:307-327): success, an `HTTPError` escaping
the body, or any other escaping exception.  A group's message fetch can
produce neither error outcome: `poll_once` catches every fetch exception per
group (beeper_sync.py:245-249), so an `httpError` here could only arrive
from the other calls inside the `try` (e.g. the consumer callback), never
from the source's unauthorized signal. -/
inductive PollOutcome
  | ok (msgs : List Msg)
  | httpError (code : Nat)
  | connError
deriving DecidableEq

/-- The outcome of one Google Groups poll attempt as seen by `sync_loop`'s
`try/except` (google_groups_sync.py:346-374): success, an authentication
failure raised by `client.login` (an `imaplib.IMAP4.error`), or any other
exception. -/
inductive GGOutcome
  | ok (msgs : List Msg)
  | authError
  | otherError
deriving DecidableEq

/-- What a supervisor loop iteration does next: terminate (the exception is
re-raised), sleep `sleep` and retry with backoff `nextB`, or sleep the poll
interval after a successful cycle with backoff reset to `nextB`. -/
inductive LoopStep
  | stopped
  | retry (sleep : Nat) (nextB : Nat)
  | next (sleep : Nat) (nextB : Nat)
deriving DecidableEq

/-- The backoff update `backoff = min(backoff * 2, 300)` shared by both
loops. -/
def nextBackoff (b : Nat) : Nat := min (b * 2) 300

/-- The backoff value after `k` consecutive failures, starting from the
initial `backoff = 1`. -/
def backoffAfter : Nat → Nat
  | 0 => 1
  | k + 1 => nextBackoff (backoffAfter k)

/-- One iteration of the Beeper `sync_loop` `try/except` (beeper_sync.py:
307-327): success resets backoff to 1 and sleeps the poll interval; an
escaping HTTP 401 is logged and re-raised (the loop stops) — a branch no
source fetch failure can reach, since `poll_once` catches those per group —
and any other escaping failure sleeps the current backoff and doubles it up
to 300. -/
def beeper_loop_step (poll_interval b : Nat) : PollOutcome → LoopStep
  | .ok _ => .next poll_interval 1
  | .httpError code => if code = 401 then .stopped else .retry b (nextBackoff b)
  | .connError => .retry b (nextBackoff b)

/-- One iteration of the Google Groups `sync_loop` `try/except`
(google_groups_sync.py:346-374): success resets backoff to 1; every
exception — authentication failures included — sleeps the current backoff and
doubles it up to 300. -/
def gg_loop_step (poll_interval b : Nat) : GGOutcome → LoopStep
  | .ok _ => .next poll_interval 1
  | .authError => .retry b (nextBackoff b)
  | .otherError => .retry b (nextBackoff b)

/-! ### Matrix adapter (`matrix_sync.py`) -/

/-- A Matrix timeline event with the fields `parse_message_event` reads;
`origin_server_ts` is `none` when the event carries no server timestamp
(`event.get("origin_server_ts", 0)`). -/
structure MatrixEvent where
  type : String
  event_id : String
  sender : String
  senderNameField : String
  bodyField : String
  origin_server_ts : Option Int
deriving DecidableEq

/-- `parse_message_event` (matrix_sync.py:20-42). -/
def parse_message_event (dumps : MatrixEvent → String) (event : MatrixEvent)
    (room_id room_name : String) : Option Msg :=
  if event.type ≠ "m.room.message" then none
  else
    let sender_name :=
      if event.senderNameField ≠ "" then event.senderNameField
      else
        pyReplace (String.mk ((takeBeforeChar ':' event.sender).data.dropWhile
          (fun c => c == '@'))) "whatsapp_" "+"
    some
      { id := event.event_id
        room_id := room_id
        room_name := room_name
        sender_id := event.sender
        sender_name := sender_name
        body := event.bodyField
        timestamp := event.origin_server_ts.getD 0
        raw_event := dumps event }

/-! ### Concrete instances used by counterexamples and witnesses

The helper functions standing in for external serializers are constant for
readability; the claims below never inspect `raw_event` or the sha1 digest
beyond determinism. -/

/-- Constant stand-in for `hashlib.sha1(...).hexdigest()` in the concrete
runs. -/
def cSha1 : String → String := fun _ => "abcdef"

/-- Constant stand-in for the `json.dumps` raw-event serializer of the Google
Groups adapter in the concrete runs. -/
def cDumpsG : EmailMsg → Nat → String := fun _ _ => "rawG"

/-- Constant stand-in for `json.dumps(msg)` of the Beeper adapter in the
concrete runs. -/
def cDumpsB : BRaw → String := fun _ => "rawB"

/-- Constant stand-in for `json.dumps(event)` of the Matrix adapter in the
concrete runs. -/
def cDumpsM : MatrixEvent → String := fun _ => "rawM"

/-- A Google Groups email (List-Id `<mylist.googlegroups.com>`) with a
parseable Date header. -/
def cEmail : EmailMsg :=
  { listId := some "<mylist.googlegroups.com>", xGoogleLoop := none, addrs := []
    fromName := "Ann", fromAddr := "Ann@Example.com", textBody := "hello"
    dateHeader := "Mon, 1 Jan 2024 00:00:00 +0000", dateMs := some 1111
    messageId := "<mid@x>", subject := "s" }

/-- The row `parse_group_email` produces for `cEmail` at UID 5. -/
def cEmailMsgRow : Msg :=
  { id := "googlegroup-mylist-abcdef", room_id := "googlegroup:mylist"
    room_name := "mylist", sender_id := "ann@example.com", sender_name := "Ann"
    body := "hello", timestamp := 1111, raw_event := "rawG" }

/-- Database holding a Google Groups UID cursor of 4 for mailbox INBOX and no
messages. -/
def cDb4 : DB := ⟨[], [("google_groups_uid_cursor:INBOX", "4")]⟩

/-- IMAP remote state with one new message at UID 5. -/
def cRemote5 : ImapRemote := ⟨[5], fun u => if u = 5 then some cEmail else none⟩

/-- The database state right after `gg_poll_once` on `cDb4`/`cRemote5`: the
cursor has been advanced to 5 but no message row has been written yet. -/
def cDbMid : DB := ⟨[], [("google_groups_uid_cursor:INBOX", "5")]⟩

/-- The database state after the Google Groups `sync_loop` body also persisted
the batch. -/
def cDbFin : DB := ⟨[cEmailMsgRow], [("google_groups_uid_cursor:INBOX", "5")]⟩

/-- An email with the same shape as `cEmail` but no parseable Date header. -/
def cEmailNoDate : EmailMsg :=
  { listId := some "<mylist.googlegroups.com>", xGoogleLoop := none, addrs := []
    fromName := "Ann", fromAddr := "Ann@Example.com", textBody := "hello"
    dateHeader := "", dateMs := none, messageId := "<mid@x>", subject := "s" }

/-- An email on a group (`other`) outside the allowed set `["mylist"]`. -/
def cEmailOther : EmailMsg :=
  { listId := some "<other.googlegroups.com>", xGoogleLoop := none, addrs := []
    fromName := "Bob", fromAddr := "bob@example.com", textBody := "spam"
    dateHeader := "D", dateMs := some 7, messageId := "<m2@x>", subject := "t" }

/-- A plain Beeper TEXT message in chat c1. -/
def cBRaw : BRaw :=
  { type := "TEXT", text := "hi", timestampMs := 5, senderName := "@bob:beeper.local"
    senderID := "s1", chatID := "c1", id := "m1", sortKey := "k1" }

/-- The row `parse_beeper_message` produces for `cBRaw` in room `T`. -/
def cBRow : Msg :=
  { id := "beeper-c1-m1", room_id := "c1", room_name := "T", sender_id := "s1"
    sender_name := "bob", body := "hi", timestamp := 5, raw_event := "rawB" }

/-- The WhatsApp group chat object for chat c1. -/
def cChat : Chat := { id := "c1", title := "T", network := "WhatsApp", type := "group" }

/-- The final database state of one Beeper group cycle that saved `cBRow` and
then advanced the cursor to `k1`. -/
def cBDbFin : DB := ⟨[cBRow], [("beeper_cursor:c1", "k1")]⟩

/-- Beeper chat remote whose latest page is just `cBRaw` and which has nothing
newer than any cursor. -/
def cBRemote : BeeperChatRemote := ⟨[cBRaw], fun _ => []⟩

/-- Two rows for the batch-isolation counterexample: the insert of `cFailA`
raises, the insert of `cFailB` does not. -/
def cFailA : Msg :=
  { id := "id-a", room_id := "r", room_name := "R", sender_id := "s"
    sender_name := "S", body := "x", timestamp := 1, raw_event := "e" }

/-- Second row of the batch-isolation counterexample. -/
def cFailB : Msg :=
  { id := "id-b", room_id := "r", room_name := "R", sender_id := "s"
    sender_name := "S", body := "y", timestamp := 2, raw_event := "e" }

/-- Failure oracle: exactly the insert of `cFailA` raises. -/
def cFails : Msg → Bool := fun m => m.id == "id-a"

/-- A WhatsApp group chat whose title is on the default exclusion list. -/
def cChatEx : Chat :=
  { id := "c9", title := "BBC News", network := "WhatsApp", type := "group" }

/-- The row `parse_message_event` produces for `cMEvent` in room `rm`. -/
def cMRow : Msg :=
  { id := "$e1", room_id := "rm", room_name := "RName"
    sender_id := "@whatsapp_15551234:beeper.local", sender_name := "+15551234"
    body := "hey", timestamp := 777, raw_event := "rawM" }

/-- An IMAP remote with two historical messages and no fetchable bodies, for
the first-run witness (the first poll stores the cursor without fetching). -/
def cRemote37 : ImapRemote := ⟨[3, 7], fun _ => none⟩

/-- The empty database (fresh `init_db` state, ignoring non-ingestion
tables). -/
def cEmptyDB : DB := ⟨[], []⟩

/-- A Matrix `m.room.message` event with a server timestamp. -/
def cMEvent : MatrixEvent :=
  { type := "m.room.message", event_id := "$e1", sender := "@whatsapp_15551234:beeper.local"
    senderNameField := "", bodyField := "hey", origin_server_ts := some 777 }

/-! ### Lemmas: character classes and stripping -/

theorem slug_not_ws {c : Char} (h : isSlugChar c = true) : wsChar c = false := by
  simp only [isSlugChar, decide_eq_true_eq] at h
  simp only [wsChar, decide_eq_false_iff_not]
  omega

theorem slug_not_quote {c : Char} (h : isSlugChar c = true) : quoteStripChar c = false := by
  simp only [isSlugChar, decide_eq_true_eq] at h
  simp only [quoteStripChar, decide_eq_false_iff_not]
  omega

theorem toLower_slug {c : Char} (h : isSlugChar c = true) : c.toLower = c := by
  simp only [isSlugChar, decide_eq_true_eq] at h
  unfold Char.toLower
  rw [if_neg (by omega)]

theorem pyStrip_eq_self {p : Char → Bool} {l : List Char}
    (h : ∀ c ∈ l, p c = false) : pyStrip p l = l := by
  have h1 : l.dropWhile p = l := by
    cases l with
    | nil => rfl
    | cons c rest =>
      rw [List.dropWhile_cons, if_neg]
      simp [h c (List.mem_cons_self c rest)]
  unfold pyStrip
  rw [h1, List.rdropWhile_eq_self_iff.mpr]
  intro hl
  simp [h _ (List.getLast_mem hl)]

theorem pyStrip_isInfix (p : Char → Bool) (l : List Char) : pyStrip p l <:+: l := by
  have hsuf : l.dropWhile p <:+ l := List.dropWhile_suffix p
  have hpre := List.rdropWhile_prefix p (l.dropWhile p)
  obtain ⟨s, hs⟩ := hsuf
  obtain ⟨t, ht⟩ := hpre
  refine ⟨s, t, ?_⟩
  unfold pyStrip
  rw [List.append_assoc, ht, hs]

theorem dropWhile_eq_self_of_pre {p : Char → Bool} {X B : List Char}
    (hX : X.dropWhile p = X) (hBX : B <+: X) : B.dropWhile p = B := by
  cases B with
  | nil => rfl
  | cons c B' =>
    obtain ⟨t, ht⟩ := hBX
    rw [← ht] at hX
    by_cases hp : p c
    · rw [List.cons_append, List.dropWhile_cons, if_pos hp] at hX
      have hlen := congrArg List.length hX
      have hle := (List.dropWhile_sublist (l := B' ++ t) p).length_le
      simp at hlen hle
      omega
    · rw [List.dropWhile_cons, if_neg hp]

theorem pyStrip_idem (p : Char → Bool) (l : List Char) :
    pyStrip p (pyStrip p l) = pyStrip p l := by
  unfold pyStrip
  have h1 : (l.dropWhile p).dropWhile p = l.dropWhile p := List.dropWhile_idempotent p l
  have hpre := List.rdropWhile_prefix p (l.dropWhile p)
  have h2 := dropWhile_eq_self_of_pre h1 hpre
  rw [h2]
  exact List.rdropWhile_idempotent p (l.dropWhile p)

/-! ### Lemmas: the slug substitution and the split-before-pattern -/

theorem subBad_all_slug (b : Bool) (l : List Char) :
    ∀ c ∈ subBadAux b l, isSlugChar c = true := by
  induction l generalizing b with
  | nil => intro c hc; simp [subBadAux] at hc
  | cons x rest ih =>
    intro c hc
    rw [subBadAux] at hc
    by_cases hx : isSlugChar x
    · rw [if_pos hx] at hc
      rcases List.mem_cons.mp hc with h | h
      · rw [h]; exact hx
      · exact ih false c h
    · rw [if_neg hx] at hc
      cases b with
      | true => exact ih true c (by simpa using hc)
      | false =>
        rcases List.mem_cons.mp (by simpa using hc) with h | h
        · rw [h]; decide
        · exact ih true c h

theorem subBad_eq_self {l : List Char} (h : ∀ c ∈ l, isSlugChar c = true) (b : Bool) :
    subBadAux b l = l := by
  induction l generalizing b with
  | nil => rfl
  | cons x rest ih =>
    rw [subBadAux, if_pos (h x (List.mem_cons_self x rest))]
    rw [ih (fun c hc => h c (List.mem_cons_of_mem x hc)) false]

theorem takeBeforeSub_isPre (pat : List Char) (l : List Char) :
    takeBeforeSub pat l <+: l := by
  induction l with
  | nil => exact ⟨[], rfl⟩
  | cons c rest ih =>
    rw [takeBeforeSub]
    by_cases hp : pat.isPrefixOf (c :: rest)
    · rw [if_pos hp]; exact ⟨c :: rest, rfl⟩
    · rw [if_neg hp]
      obtain ⟨t, ht⟩ := ih
      exact ⟨t, by rw [List.cons_append, ht]⟩

theorem not_infix_takeBeforeSub {pat : List Char} (hpat : pat ≠ []) (l : List Char) :
    ¬ pat <:+: takeBeforeSub pat l := by
  induction l with
  | nil =>
    intro h
    rw [takeBeforeSub] at h
    exact hpat (List.infix_nil.mp h)
  | cons c rest ih =>
    intro h
    rw [takeBeforeSub] at h
    by_cases hp : pat.isPrefixOf (c :: rest)
    · rw [if_pos hp] at h
      exact hpat (List.infix_nil.mp h)
    · rw [if_neg hp] at h
      rcases List.infix_cons_iff.mp h with hpre | hinf
      · apply hp
        rw [List.isPrefixOf_iff_prefix]
        cases pat with
        | nil => exact absurd rfl hpat
        | cons d pat' =>
          obtain ⟨hd, htail⟩ := List.cons_prefix_cons.mp hpre
          exact List.cons_prefix_cons.mpr ⟨hd, htail.trans (takeBeforeSub_isPre _ _)⟩
      · exact ih hinf

theorem pre_subBad {P : List Char} (hP : '-' ∉ P) :
    ∀ l, P <+: subBadAux false l → P <+: l := by
  induction P with
  | nil => intro l _; exact ⟨l, rfl⟩
  | cons d P' ih =>
    intro l hpre
    cases l with
    | nil =>
      rw [subBadAux] at hpre
      exact absurd (List.prefix_nil.mp hpre) (by simp)
    | cons c rest =>
      rw [subBadAux] at hpre
      by_cases hc : isSlugChar c
      · rw [if_pos hc] at hpre
        obtain ⟨hd, htail⟩ := List.cons_prefix_cons.mp hpre
        have hP' : '-' ∉ P' := fun hmem => hP (List.mem_cons_of_mem d hmem)
        exact List.cons_prefix_cons.mpr ⟨hd, ih hP' rest htail⟩
      · rw [if_neg hc, if_neg (by simp)] at hpre
        obtain ⟨hd, _⟩ := List.cons_prefix_cons.mp hpre
        exact absurd (hd ▸ List.mem_cons_self d P') hP

theorem infix_of_pre {α : Type} {l₁ l₂ : List α} (h : l₁ <+: l₂) : l₁ <:+: l₂ := by
  obtain ⟨t, ht⟩ := h
  exact ⟨[], t, by simpa using ht⟩

theorem infix_cons_of_infix {α : Type} {l₁ l₂ : List α} (a : α) (h : l₁ <:+: l₂) :
    l₁ <:+: a :: l₂ := by
  obtain ⟨s, t, hst⟩ := h
  exact ⟨a :: s, t, by rw [← hst]; rfl⟩

theorem infix_subBad {P : List Char} (hne : P ≠ []) (hP : '-' ∉ P) :
    ∀ (l : List Char) (b : Bool), P <:+: subBadAux b l → P <:+: l := by
  intro l
  induction l with
  | nil =>
    intro b h
    rw [subBadAux] at h
    exact absurd (List.infix_nil.mp h) hne
  | cons c rest ih =>
    intro b h
    rw [subBadAux] at h
    by_cases hc : isSlugChar c
    · rw [if_pos hc] at h
      rcases List.infix_cons_iff.mp h with hpre | hinf
      · cases P with
        | nil => exact absurd rfl hne
        | cons d P' =>
          obtain ⟨hd, htail⟩ := List.cons_prefix_cons.mp hpre
          have hP' : '-' ∉ P' := fun hmem => hP (List.mem_cons_of_mem d hmem)
          exact infix_of_pre (List.cons_prefix_cons.mpr ⟨hd, pre_subBad hP' rest htail⟩)
      · exact infix_cons_of_infix c (ih false hinf)
    · rw [if_neg hc] at h
      cases b with
      | true =>
        rw [if_pos rfl] at h
        exact infix_cons_of_infix c (ih true h)
      | false =>
        rw [if_neg (by simp)] at h
        rcases List.infix_cons_iff.mp h with hpre | hinf
        · cases P with
          | nil => exact absurd rfl hne
          | cons d P' =>
            obtain ⟨hd, _⟩ := List.cons_prefix_cons.mp hpre
            exact absurd (hd ▸ List.mem_cons_self d P') hP
        · exact infix_cons_of_infix c (ih true hinf)

/-! ### Lemmas: canonical_group_key output invariants -/

theorem cgk_core_slug (t : List Char) : ∀ c ∈ cgk_core t, isSlugChar c = true := by
  intro c hc
  unfold cgk_core at hc
  have hmem := (pyStrip_isInfix dashDotUnderscore (subBadAux false (cgk_t4 t))).subset hc
  exact subBad_all_slug false (cgk_t4 t) c hmem

theorem cgk_core_no_domain (t : List Char) : ¬ ggDomain <:+: cgk_core t := by
  intro h
  have h4 : ¬ ggDomain <:+: cgk_t4 t := by
    unfold cgk_t4
    by_cases hd : ggDomain <:+: cgk_t3 t
    · rw [if_pos hd]
      exact not_infix_takeBeforeSub (by decide) (cgk_t3 t)
    · rw [if_neg hd]
      exact hd
  have h5 : ggDomain <:+: subBadAux false (cgk_t4 t) :=
    h.trans (pyStrip_isInfix dashDotUnderscore _)
  exact h4 (infix_subBad (by decide) (by decide) (cgk_t4 t) false h5)

theorem cgk_core_strip (t : List Char) :
    pyStrip dashDotUnderscore (cgk_core t) = cgk_core t :=
  pyStrip_idem dashDotUnderscore (subBadAux false (cgk_t4 t))

theorem cgk_core_eq_self {t : List Char} (hslug : ∀ c ∈ t, isSlugChar c = true)
    (hnd : ¬ ggDomain <:+: t) (hstrip : pyStrip dashDotUnderscore t = t) :
    cgk_core t = t := by
  have h1 : cgk_t1 t = t := by
    have hlt : ('<' : Char) ∉ t := fun hmem => absurd (hslug _ hmem) (by decide)
    simp [cgk_t1, hlt]
  have h2 : cgk_t2 t = t := by
    rw [cgk_t2, h1]
    exact pyStrip_eq_self (fun c hc => slug_not_quote (hslug c hc))
  have h3 : cgk_t3 t = t := by
    have hat : ('@' : Char) ∉ t := fun hmem => absurd (hslug _ hmem) (by decide)
    simp [cgk_t3, h2, hat]
  have h4 : cgk_t4 t = t := by
    simp [cgk_t4, h3, hnd]
  rw [cgk_core, h4, subBad_eq_self hslug false, hstrip]

theorem canonical_eq_self_of_slug {out : List Char}
    (hs1 : ∀ c ∈ out, isSlugChar c = true) (hs2 : ¬ ggDomain <:+: out)
    (hs3 : pyStrip dashDotUnderscore out = out) :
    canonical_group_key (String.mk out) = String.mk out := by
  have hws : pyStrip wsChar out = out :=
    pyStrip_eq_self (fun c hc => slug_not_ws (hs1 c hc))
  have hlow : out.map Char.toLower = out := by
    have hid : ∀ c ∈ out, Char.toLower c = id c := fun c hc => toLower_slug (hs1 c hc)
    rw [List.map_congr_left hid, List.map_id]
  show (if (pyStrip wsChar out).map Char.toLower = [] then ""
    else String.mk (cgk_core ((pyStrip wsChar out).map Char.toLower))) = String.mk out
  rw [hws, hlow]
  by_cases hoe : out = []
  · rw [if_pos hoe, hoe]
  · rw [if_neg hoe, cgk_core_eq_self hs1 hs2 hs3]

/-- C10: `canonical_group_key` is idempotent — re-canonicalizing an already
canonical key leaves it unchanged. -/
theorem canonical_group_key_idem (s : String) :
    canonical_group_key (canonical_group_key s) = canonical_group_key s := by
  by_cases h0 : (pyStrip wsChar s.data).map Char.toLower = []
  · have h1 : canonical_group_key s = "" := by
      unfold canonical_group_key
      rw [if_pos h0]
    rw [h1]
    rfl
  · have h1 : canonical_group_key s
        = String.mk (cgk_core ((pyStrip wsChar s.data).map Char.toLower)) := by
      unfold canonical_group_key
      rw [if_neg h0]
    rw [h1]
    exact canonical_eq_self_of_slug (cgk_core_slug _) (cgk_core_no_domain _) (cgk_core_strip _)

/-! ### Lemmas: idempotent persistence -/

theorem hasId_insertOrIgnore (tbl : List Msg) (m : Msg) :
    messagesHasId (insertOrIgnore tbl m).1 m.id = true := by
  unfold insertOrIgnore
  by_cases h : messagesHasId tbl m.id
  · rw [if_pos h]; exact h
  · rw [if_neg h]
    simp [messagesHasId]

theorem hasId_insertOrIgnore_mono {tbl : List Msg} {i : String} (m : Msg)
    (h : messagesHasId tbl i = true) :
    messagesHasId (insertOrIgnore tbl m).1 i = true := by
  unfold insertOrIgnore
  by_cases hp : messagesHasId tbl m.id
  · rw [if_pos hp]; exact h
  · rw [if_neg hp]
    unfold messagesHasId at h ⊢
    rw [List.any_append, h, Bool.true_or]

theorem hasId_save_messages {fails : Msg → Bool} {msgs : List Msg} {m : Msg}
    (hm : m ∈ msgs) (hf : fails m = false) (tbl : List Msg) :
    messagesHasId (save_messages fails tbl msgs).1 m.id = true := by
  induction msgs generalizing tbl with
  | nil => cases hm
  | cons x rest ih =>
    rw [save_messages]
    rcases List.mem_cons.mp hm with h | h
    · subst h
      rw [if_neg (by simp [hf])]
      by_cases hr : m ∈ rest
      · exact ih hr _
      · have : ∀ t, messagesHasId t m.id = true →
            messagesHasId (save_messages fails t rest).1 m.id = true := by
          intro t ht
          clear ih hm
          induction rest generalizing t with
          | nil => exact ht
          | cons y rs ih2 =>
            rw [save_messages]
            by_cases hy : fails y
            · rw [if_pos hy]; exact ih2 (by simp at hr; exact fun hh => hr.2 hh) t ht
            · rw [if_neg hy]
              exact ih2 (by simp at hr; exact fun hh => hr.2 hh)
                (insertOrIgnore t y).1 (hasId_insertOrIgnore_mono y ht)
        exact this _ (hasId_insertOrIgnore tbl m)
    · by_cases hx : fails x
      · rw [if_pos hx]; exact ih h tbl
      · rw [if_neg hx]; exact ih h (insertOrIgnore tbl x).1

theorem save_messages_all_present {tbl : List Msg} {msgs : List Msg}
    (h : ∀ m ∈ msgs, messagesHasId tbl m.id = true) :
    save_messages (fun _ => false) tbl msgs = (tbl, 0)
    ∧ gg_save_messages (fun _ => false) tbl msgs = .ok (tbl, 0) := by
  induction msgs with
  | nil => exact ⟨rfl, rfl⟩
  | cons x rest ih =>
    have hx : insertOrIgnore tbl x = (tbl, 0) := by
      rw [insertOrIgnore, if_pos (h x (List.mem_cons_self x rest))]
    have hrest := ih (fun m hm => h m (List.mem_cons_of_mem x hm))
    constructor
    · rw [save_messages, if_neg (by simp), hx]
      simp [hrest.1]
    · rw [gg_save_messages, if_neg (by simp), hx]
      simp [hrest.2]

/-! ### Claims C2, C5, C8 -/

/-- C2: persisting the same normalized message twice (same derived id) inserts
it at most once — saving `[m, m]` into a table without `m.id` appends exactly
one copy — and a second call of either batch saver (`save_messages`,
`_save_messages`) with a batch whose ids are all already present returns 0 and
leaves the messages table unchanged. -/
theorem save_messages_idempotent (tbl : List Msg) (m : Msg) (msgs : List Msg)
    (hm : messagesHasId tbl m.id = false) :
    (save_messages (fun _ => false) tbl [m, m]).1 = tbl ++ [m]
    ∧ save_messages (fun _ => false) ((save_messages (fun _ => false) tbl msgs).1) msgs
        = ((save_messages (fun _ => false) tbl msgs).1, 0)
    ∧ gg_save_messages (fun _ => false) ((save_messages (fun _ => false) tbl msgs).1) msgs
        = .ok ((save_messages (fun _ => false) tbl msgs).1, 0) := by
  refine ⟨?_, ?_, ?_⟩
  · rw [save_messages, if_neg (by simp)]
    have h1 : insertOrIgnore tbl m = (tbl ++ [m], 1) := by
      rw [insertOrIgnore, if_neg (by simp [hm])]
    have h2 : insertOrIgnore (tbl ++ [m]) m = (tbl ++ [m], 0) := by
      rw [insertOrIgnore, if_pos]
      simp [messagesHasId]
    rw [h1]
    simp [save_messages, h2]
  · exact (save_messages_all_present (fun x hx => hasId_save_messages hx rfl tbl)).1
  · exact (save_messages_all_present (fun x hx => hasId_save_messages hx rfl tbl)).2

/-- Witness for C2 at a concrete table and batch. -/
theorem save_messages_idempotent_witness :
    (save_messages (fun _ => false) [] [cFailB, cFailB]).1 = [] ++ [cFailB]
    ∧ save_messages (fun _ => false) ((save_messages (fun _ => false) [] [cFailB]).1) [cFailB]
        = ((save_messages (fun _ => false) [] [cFailB]).1, 0)
    ∧ gg_save_messages (fun _ => false) ((save_messages (fun _ => false) [] [cFailB]).1) [cFailB]
        = .ok ((save_messages (fun _ => false) [] [cFailB]).1, 0) :=
  save_messages_idempotent [] cFailB [cFailB] (by decide)

/-- C5 (amended): in the Beeper `save_messages`, a raising insert is logged per
message and every message of the batch whose own insert does not raise is
still persisted; the Google Groups `_save_messages`, by contrast, aborts the
batch on the first raising insert. -/
theorem save_messages_batch_isolation (fails : Msg → Bool) (tbl : List Msg)
    (msgs : List Msg) (m : Msg) (hm : m ∈ msgs) (hf : fails m = false) :
    messagesHasId (save_messages fails tbl msgs).1 m.id = true :=
  hasId_save_messages hm hf tbl

/-- Witness for C5's amended theorem: with the first insert raising, the
second message of the same batch is still persisted by `save_messages`. -/
theorem save_messages_batch_isolation_witness :
    messagesHasId (save_messages cFails [] [cFailA, cFailB]).1 cFailB.id = true :=
  save_messages_batch_isolation cFails [] [cFailA, cFailB] cFailB (by decide) (by decide)

/-- Counterexample for C5 as stated: the Google Groups `_save_messages` has no
per-message handler, so a batch whose first insert raises is aborted before
`conn.commit()` even though the second message's insert would not raise. -/
theorem gg_save_messages_aborts_batch :
    cFails cFailB = false
    ∧ gg_save_messages cFails [] [cFailA, cFailB] = .error () := by decide

/-- C8: on the spec's example body, `_strip_quoted_text` truncates at the
`On ... wrote:` boundary and strips, yielding exactly "New thought here.". -/
theorem strip_quoted_example :
    strip_quoted_text "New thought here.\n\nOn Wed someone wrote:\n> quoted text"
      = "New thought here." := by decide

/-! ### Claims C4, C6: supervisor failure handling and backoff -/

/-- C4 (amended): an unauthorized fetch failure from the source stops neither
supervisor loop.  In the Beeper loop the per-group `try/except` inside
`poll_once` (beeper_sync.py:245-249) catches the fetch exception — an HTTP
401 included — logs it and skips the group, so `poll_once` returns normally
with nothing fetched or persisted for that group, the iteration completes as
a success and backoff resets to 1 (the 401-fatal branch of `sync_loop`,
lines 317-320, is unreachable from a source fetch failure); the Google
Groups loop catches every exception, authentication failures included, and
sleeps and retries with doubled backoff instead of stopping. -/
theorem fetch_auth_failure_not_fatal
    (dumps : BRaw → String) (fetches : Chat → Option (List BRaw × Option String))
    (g : Chat) (db : DB) (poll_interval b : Nat) (msgs : List Msg)
    (hf : fetches g = none) :
    beeper_poll_once dumps fetches [g] db = (db, [])
    ∧ beeper_group_cycle_states dumps none g db = [db]
    ∧ beeper_group_batch dumps none g.title = []
    ∧ beeper_loop_step poll_interval b (.ok msgs) = .next poll_interval 1
    ∧ gg_loop_step poll_interval b .authError = .retry b (nextBackoff b) := by
  refine ⟨?_, rfl, rfl, rfl, rfl⟩
  unfold beeper_poll_once
  simp only [hf]
  rfl

/-- Witness for C4's amended theorem: a concrete Beeper group whose fetch
raises is skipped, the iteration completing with backoff reset, while the
Google Groups loop retries. -/
theorem fetch_auth_failure_not_fatal_witness :
    beeper_poll_once cDumpsB (fun _ => none) [cChat] cEmptyDB = (cEmptyDB, [])
    ∧ beeper_group_cycle_states cDumpsB none cChat cEmptyDB = [cEmptyDB]
    ∧ beeper_group_batch cDumpsB none cChat.title = []
    ∧ beeper_loop_step 30 1 (.ok []) = .next 30 1
    ∧ gg_loop_step 30 1 .authError = .retry 1 (nextBackoff 1) :=
  fetch_auth_failure_not_fatal cDumpsB (fun _ => none) cChat cEmptyDB 30 1 [] (by decide)

/-- Counterexample for C4 as stated: the Google Groups supervisor does not
stop on an authentication failure — with the initial backoff of 1 it sleeps
1 time-unit and retries with backoff 2. -/
theorem gg_loop_retries_on_auth_failure :
    gg_loop_step 60 1 .authError = .retry 1 2
    ∧ LoopStep.retry 1 2 ≠ LoopStep.stopped := by decide

/-- C6: in both supervisor loops the backoff starts at 1, is doubled and
capped at 300 after each consecutive failure (hence the sleep sequence is
non-decreasing and never exceeds 300), the failing iteration sleeps the
current backoff, and a successful cycle resets the backoff to 1 and sleeps
the poll interval. -/
theorem backoff_bound (k poll_interval b : Nat) (msgs : List Msg) :
    backoffAfter 0 = 1
    ∧ backoffAfter (k + 1) = min (backoffAfter k * 2) 300
    ∧ backoffAfter k ≤ backoffAfter (k + 1)
    ∧ backoffAfter k ≤ 300
    ∧ beeper_loop_step poll_interval b (.connError) = .retry b (min (b * 2) 300)
    ∧ gg_loop_step poll_interval b (.otherError) = .retry b (min (b * 2) 300)
    ∧ beeper_loop_step poll_interval b (.ok msgs) = .next poll_interval 1
    ∧ gg_loop_step poll_interval b (.ok msgs) = .next poll_interval 1 := by
  have hub : ∀ n, backoffAfter n ≤ 300 := by
    intro n
    induction n with
    | zero => decide
    | succ m ih =>
      rw [backoffAfter, nextBackoff]
      omega
  refine ⟨rfl, rfl, ?_, hub k, rfl, rfl, rfl, rfl⟩
  rw [backoffAfter, nextBackoff]
  have := hub k
  omega

/-! ### Claim C1: cursor advancement versus persistence -/

theorem getState_setState (db : DB) (k v : String) :
    getState (setState db k v) k = some v := by
  unfold getState setState
  rw [List.find?_cons_of_pos]
  · rfl
  · simp

theorem beeper_db1_sync (dumps : BRaw → String) (raws : List BRaw) (g : Chat) (db : DB) :
    (beeper_group_db1 dumps raws g db).sync_state = db.sync_state := by
  rw [beeper_group_db1]
  split <;> rfl

theorem beeper_db1_load (dumps : BRaw → String) (raws : List BRaw) (g : Chat) (db : DB) :
    loadBeeperCursor (beeper_group_db1 dumps raws g db) g.id = loadBeeperCursor db g.id := by
  unfold loadBeeperCursor getState
  rw [beeper_db1_sync]

/-- C1 (amended): the Beeper source does persist before advancing — in one
group's poll cycle, any reachable database state whose stored cursor for that
group differs from the cycle-start cursor already contains every message of
the fetched batch.  (The Google Groups source violates this; see the
counterexample.) -/
theorem beeper_persist_before_advance (dumps : BRaw → String)
    (fetch : Option (List BRaw × Option String)) (g : Chat) (db : DB) (st : DB) (m : Msg)
    (hst : st ∈ beeper_group_cycle_states dumps fetch g db)
    (hm : m ∈ beeper_group_batch dumps fetch g.title)
    (hcur : loadBeeperCursor st g.id ≠ loadBeeperCursor db g.id) :
    messagesHasId st.messages m.id = true := by
  match fetch with
  | none =>
    rw [beeper_group_batch] at hm
    cases hm
  | some (raws, newCur) =>
    rw [beeper_group_batch] at hm
    have hbne : raws.filterMap (fun r => parse_beeper_message dumps r g.title) ≠ [] := by
      intro hnil
      rw [hnil] at hm
      cases hm
    have hsaved : messagesHasId (beeper_group_db1 dumps raws g db).messages m.id = true := by
      rw [beeper_group_db1, if_pos hbne]
      exact hasId_save_messages hm rfl db.messages
    rw [beeper_group_cycle_states] at hst
    simp only [List.mem_cons, List.not_mem_nil, or_false] at hst
    rcases hst with h | h | h
    · subst h
      exact absurd rfl hcur
    · subst h
      rw [beeper_db1_load] at hcur
      exact absurd rfl hcur
    · subst h
      cases newCur with
      | none =>
        rw [beeper_group_db2] at hcur ⊢
        rw [beeper_db1_load] at hcur
        exact absurd rfl hcur
      | some nc =>
        rw [beeper_group_db2] at hcur ⊢
        by_cases hc : loadBeeperCursor db g.id ≠ some nc
        · rw [if_pos hc]
          exact hsaved
        · rw [if_neg hc] at hcur
          rw [beeper_db1_load] at hcur
          exact absurd rfl hcur

/-- Witness for C1's amended theorem: a concrete Beeper cycle whose final
state advanced the cursor to `k1` and already holds the batch row. -/
theorem beeper_persist_before_advance_witness :
    messagesHasId cBDbFin.messages cBRow.id = true :=
  beeper_persist_before_advance cDumpsB (some ([cBRaw], some "k1")) cChat ⟨[], []⟩ cBDbFin
    cBRow (by decide) (by decide) (by decide)

/-- Counterexample for C1 as stated: in the Google Groups source the cursor is
advanced inside `poll_once`, before `sync_loop` persists the batch.  On the
concrete run the middle reachable state `cDbMid` has the cursor already at
UID 5 while the fetched batch `[cEmailMsgRow]` is not yet in the messages
table. -/
theorem gg_cursor_advances_before_persist :
    gg_cycle_states cSha1 cDumpsG 0 cRemote5 "INBOX" [] cDb4 = [cDb4, cDbMid, cDbFin]
    ∧ (gg_poll_once cSha1 cDumpsG 0 cRemote5 "INBOX" [] cDb4).2 = [cEmailMsgRow]
    ∧ loadUidCursor cDbMid "INBOX" = some 5
    ∧ cDbMid.messages = []
    ∧ cEmailMsgRow ∈ cDbFin.messages := by decide

/-! ### Claim C3: no backfill on first run -/

/-- C3: for a scope with no stored cursor and a non-empty remote, the first
Google Groups poll cycle returns no messages, leaves the messages table
unchanged and stores the cursor at the mailbox's maximum UID; and the first
Beeper cycle after the `sync_loop` cursor-seeding block (cursor seeded at the
newest message's sortKey, the remote having nothing newer than it) leaves the
database entirely unchanged through all its states. -/
theorem first_run_no_backfill
    (sha1hex : String → String) (dumps : EmailMsg → Nat → String) (nowMs : Int)
    (remote : ImapRemote) (mailbox : String) (allowed : List String) (db : DB)
    (dumpsB : BRaw → String) (bremote : BeeperChatRemote) (g : Chat) (bdb : DB)
    (item : BRaw) (rest : List BRaw)
    (hg : loadUidCursor db mailbox = none)
    (hne : remote.uids ≠ [])
    (hbc : loadBeeperCursor bdb g.id = none)
    (hpage : bremote.latestPage = item :: rest)
    (hafter : bremote.fetchAfter item.sortKey = []) :
    (gg_poll_once sha1hex dumps nowMs remote mailbox allowed db).2 = []
    ∧ ((gg_poll_once sha1hex dumps nowMs remote mailbox allowed db).1).messages = db.messages
    ∧ getState (gg_poll_once sha1hex dumps nowMs remote mailbox allowed db).1
        ("google_groups_uid_cursor:" ++ mailbox) = some (toString (remote.uids.foldl Nat.max 0))
    ∧ loadBeeperCursor (beeper_init_cursor bremote g.id bdb) g.id = some item.sortKey
    ∧ (beeper_init_cursor bremote g.id bdb).messages = bdb.messages
    ∧ beeper_group_cycle_states dumpsB
        (some (fetch_new_messages bremote (some item.sortKey))) g
        (beeper_init_cursor bremote g.id bdb)
      = [beeper_init_cursor bremote g.id bdb, beeper_init_cursor bremote g.id bdb,
         beeper_init_cursor bremote g.id bdb] := by
  have hpoll : gg_poll_once sha1hex dumps nowMs remote mailbox allowed db
      = (saveUidCursor db mailbox (remote.uids.foldl Nat.max 0), []) := by
    unfold gg_poll_once
    simp only [hg]
    rw [if_neg hne]
  have hinit : beeper_init_cursor bremote g.id bdb = saveBeeperCursor bdb g.id item.sortKey := by
    unfold beeper_init_cursor
    simp only [hbc, hpage]
  have hload : loadBeeperCursor (beeper_init_cursor bremote g.id bdb) g.id
      = some item.sortKey := by
    rw [hinit]
    exact getState_setState bdb _ _
  have hfetch : fetch_new_messages bremote (some item.sortKey) = ([], some item.sortKey) := by
    unfold fetch_new_messages
    simp only [hafter]
  have hdb1 : ∀ d : DB, beeper_group_db1 dumpsB [] g d = d := by
    intro d
    rw [beeper_group_db1]
    simp
  have hdb2 : beeper_group_db2 dumpsB [] (some item.sortKey) g
      (beeper_init_cursor bremote g.id bdb) = beeper_init_cursor bremote g.id bdb := by
    rw [beeper_group_db2, if_neg (fun hx => hx hload)]
    exact hdb1 _
  refine ⟨?_, ?_, ?_, hload, ?_, ?_⟩
  · rw [hpoll]
  · rw [hpoll]
    rfl
  · rw [hpoll]
    exact getState_setState db _ _
  · rw [hinit]
    rfl
  · rw [hfetch]
    unfold beeper_group_cycle_states
    show [beeper_init_cursor bremote g.id bdb,
        beeper_group_db1 dumpsB [] g (beeper_init_cursor bremote g.id bdb),
        beeper_group_db2 dumpsB [] (some item.sortKey) g (beeper_init_cursor bremote g.id bdb)]
      = _
    rw [hdb1, hdb2]

/-- Witness for C3 at a concrete mailbox, chat and remote state. -/
theorem first_run_no_backfill_witness :
    (gg_poll_once cSha1 cDumpsG 0 cRemote37 "INBOX" [] cEmptyDB).2 = []
    ∧ ((gg_poll_once cSha1 cDumpsG 0 cRemote37 "INBOX" [] cEmptyDB).1).messages
        = cEmptyDB.messages
    ∧ getState (gg_poll_once cSha1 cDumpsG 0 cRemote37 "INBOX" [] cEmptyDB).1
        ("google_groups_uid_cursor:" ++ "INBOX")
        = some (toString (cRemote37.uids.foldl Nat.max 0))
    ∧ loadBeeperCursor (beeper_init_cursor cBRemote cChat.id cEmptyDB) cChat.id
        = some cBRaw.sortKey
    ∧ (beeper_init_cursor cBRemote cChat.id cEmptyDB).messages = cEmptyDB.messages
    ∧ beeper_group_cycle_states cDumpsB
        (some (fetch_new_messages cBRemote (some cBRaw.sortKey))) cChat
        (beeper_init_cursor cBRemote cChat.id cEmptyDB)
      = [beeper_init_cursor cBRemote cChat.id cEmptyDB,
         beeper_init_cursor cBRemote cChat.id cEmptyDB,
         beeper_init_cursor cBRemote cChat.id cEmptyDB] :=
  first_run_no_backfill cSha1 cDumpsG 0 cRemote37 "INBOX" [] cEmptyDB cDumpsB cBRemote
    cChat cEmptyDB cBRaw [] (by decide) (by decide) (by decide) (by decide) (by decide)

/-! ### Claim C7: scope filtering -/

theorem parse_room_name_allowed {sha1hex : String → String} {dumps : EmailMsg → Nat → String}
    {nowMs : Int} {e : EmailMsg} {uid : Nat} {allowed : List String} {m : Msg}
    (hp : parse_group_email sha1hex dumps nowMs e uid allowed = some m)
    (hal : allowed ≠ []) : m.room_name ∈ allowed := by
  simp only [parse_group_email] at hp
  split_ifs at hp with h1 h2
  all_goals try cases hp
  all_goals push_neg at h2
  all_goals exact h2 hal

theorem gg_poll_scope {sha1hex : String → String} {dumps : EmailMsg → Nat → String}
    {nowMs : Int} {remote : ImapRemote} {mailbox : String} {allowed : List String}
    {db : DB} {m : Msg}
    (hal : allowed ≠ [])
    (hm : m ∈ (gg_poll_once sha1hex dumps nowMs remote mailbox allowed db).2) :
    m.room_name ∈ allowed := by
  unfold gg_poll_once at hm
  cases hc : loadUidCursor db mailbox with
  | none =>
    simp only [hc] at hm
    split_ifs at hm <;> cases hm
  | some cur =>
    simp only [hc] at hm
    split_ifs at hm with hu
    · cases hm
    · simp only at hm
      obtain ⟨uid, _, hbind⟩ := List.mem_filterMap.mp hm
      obtain ⟨e, _, hpe⟩ := Option.bind_eq_some.mp hbind
      exact parse_room_name_allowed hpe hal

/-- C7: scope filtering — a chat whose title is on the exclusion list never
appears in the monitored group list returned by `get_whatsapp_groups` (so it
is never fetched or persisted), an email whose derived group key is outside
the non-empty allowed set is rejected by `parse_group_email`, and every
message in a Google Groups poll batch (the only messages `sync_loop` ever
persists) belongs to an allowed group. -/
theorem scope_filtering
    (sha1hex : String → String) (dumps : EmailMsg → Nat → String) (nowMs : Int)
    (items : List Chat) (excluded : List String) (c : Chat)
    (allowed : List String) (e : EmailMsg) (uid : Nat)
    (remote : ImapRemote) (mailbox : String) (db : DB) (m : Msg)
    (hc : c.title ∈ excluded)
    (hal : allowed ≠ [])
    (he : ¬ extract_group_key e ∈ allowed)
    (hm : m ∈ (gg_poll_once sha1hex dumps nowMs remote mailbox allowed db).2) :
    ¬ c ∈ get_whatsapp_groups items excluded
    ∧ parse_group_email sha1hex dumps nowMs e uid allowed = none
    ∧ m.room_name ∈ allowed := by
  refine ⟨?_, ?_, gg_poll_scope hal hm⟩
  · intro hmem
    unfold get_whatsapp_groups at hmem
    rw [List.mem_filter] at hmem
    simp at hmem
    exact hmem.2.2 hc
  · unfold parse_group_email
    by_cases h1 : extract_group_key e = ""
    · rw [if_pos h1]
    · rw [if_neg h1, if_pos ⟨hal, he⟩]

/-- Witness for C7 at a concrete excluded chat, rejected email and allowed
poll batch. -/
theorem scope_filtering_witness :
    ¬ cChatEx ∈ get_whatsapp_groups [cChatEx] ["BBC News"]
    ∧ parse_group_email cSha1 cDumpsG 0 cEmailOther 9 ["mylist"] = none
    ∧ cEmailMsgRow.room_name ∈ ["mylist"] :=
  scope_filtering cSha1 cDumpsG 0 [cChatEx] ["BBC News"] cChatEx ["mylist"] cEmailOther 9
    cRemote5 "INBOX" cDb4 cEmailMsgRow (by decide) (by decide) (by decide) (by decide)

/-! ### Claim C9: timestamps come from the origin event's clock -/

/-- C9 (amended): whenever the origin clock is present — a parseable Date
header, the Beeper wire timestamp, the Matrix `origin_server_ts` — the
normalized `timestamp` equals it (in epoch milliseconds) and not the
ingestion time; only the Google Groups adapter, when the Date header is
missing or unparseable, falls back to the ingestion clock (see the
counterexample). -/
theorem timestamp_from_origin
    (sha1hex : String → String) (dumps : EmailMsg → Nat → String) (nowMs : Int)
    (e : EmailMsg) (uid : Nat) (allowed : List String) (m : Msg) (t : Int)
    (dumpsB : BRaw → String) (raw : BRaw) (rname : String) (m2 : Msg)
    (dumpsM : MatrixEvent → String) (ev : MatrixEvent) (rid rname2 : String) (m3 : Msg)
    (hd : e.dateMs = some t)
    (h1 : parse_group_email sha1hex dumps nowMs e uid allowed = some m)
    (h2 : parse_beeper_message dumpsB raw rname = some m2)
    (h3 : parse_message_event dumpsM ev rid rname2 = some m3) :
    m.timestamp = t ∧ m2.timestamp = raw.timestampMs
    ∧ m3.timestamp = ev.origin_server_ts.getD 0 := by
  refine ⟨?_, ?_, ?_⟩
  · simp only [parse_group_email] at h1
    split_ifs at h1
    all_goals try cases h1
    all_goals simp [hd]
  · simp only [parse_beeper_message] at h2
    split_ifs at h2
    all_goals try cases h2
    all_goals rfl
  · simp only [parse_message_event] at h3
    split_ifs at h3
    all_goals try cases h3
    all_goals rfl

/-- Witness for C9's amended theorem on concrete events of all three
sources. -/
theorem timestamp_from_origin_witness :
    cEmailMsgRow.timestamp = 1111 ∧ cBRow.timestamp = cBRaw.timestampMs
    ∧ cMRow.timestamp = cMEvent.origin_server_ts.getD 0 :=
  timestamp_from_origin cSha1 cDumpsG 0 cEmail 5 [] cEmailMsgRow 1111 cDumpsB cBRaw "T"
    cBRow cDumpsM cMEvent "rm" "RName" cMRow (by decide) (by decide) (by decide) (by decide)

/-- Counterexample for C9 as stated: with no parseable Date header the Google
Groups adapter stamps the message with the local ingestion clock — two runs
of `parse_group_email` on the same email at different ingestion times yield
different timestamps, each equal to the ingestion time. -/
theorem gg_timestamp_uses_ingestion_time :
    (parse_group_email cSha1 cDumpsG 123456 cEmailNoDate 7 []).map Msg.timestamp = some 123456
    ∧ (parse_group_email cSha1 cDumpsG 999 cEmailNoDate 7 []).map Msg.timestamp
        = some 999 := by decide
